import Mathlib

/-!
Verification development for the Monday.com business-intelligence agent
(`query_engine.py`, `data_processor.py`, `agent.py`).

The tabular data model is a shallow embedding of the pandas DataFrames the
source manipulates after ingestion: a `Table` has an ordered list of column
names and rows of text cells (after `clean_dataframe`, every cell is a
stripped string and missing values are the empty string, per the data model
invariant).  Machine floats are modelled as exact rationals (`ℚ`); the
source never relies on rounding behaviour in the properties below.
String operations mirror Python semantics (`in` is substring containment,
`str.lower` is case folding, `str.strip` trims whitespace).
-/

namespace Skylark

/-- `listPrefixOf n h`: `n` is a prefix of `h`. -/
def listPrefixOf : List Char → List Char → Bool
  | [], _ => true
  | _ :: _, [] => false
  | a :: as, b :: bs => a = b && listPrefixOf as bs

/-- `listInfix n h`: `n` occurs as a contiguous run inside `h`. -/
def listInfix (n : List Char) : List Char → Bool
  | [] => n.isEmpty
  | c :: t => listPrefixOf n (c :: t) || listInfix n t

/-- Python's `needle in hay` substring test. -/
def strContains (hay needle : String) : Bool :=
  listInfix needle.toList hay.toList

/-- ASCII lower-casing of one character (`str.lower` on the repertoire the
source's keywords and data use). -/
def charLower (c : Char) : Char :=
  if 'A' ≤ c ∧ c ≤ 'Z' then Char.ofNat (c.toNat + 32) else c

/-- Python's `str.lower` (ASCII case folding). -/
def pyLower (s : String) : String :=
  String.mk (s.toList.map charLower)

/-- Python's `str.strip()`: drop leading and trailing whitespace. -/
def pyStrip (s : String) : String :=
  String.mk (((s.toList.dropWhile Char.isWhitespace).reverse.dropWhile Char.isWhitespace).reverse)

/-- Python's `any(term in hay for term in terms)`. -/
def containsAny (hay : String) (terms : List String) : Bool :=
  terms.any (fun t => strContains hay t)

/-- A pandas DataFrame after `clean_dataframe`: ordered columns, rows of
text cells aligned with the column list ("" denotes a missing value). -/
structure Table where
  cols : List String
  rows : List (List String)
deriving DecidableEq

def emptyTable : Table := ⟨[], []⟩

/-- Index of a column name in a column list (first occurrence). -/
def idxOf (c : String) : List String → Option ℕ
  | [] => none
  | x :: t => if x = c then some 0 else (idxOf c t).map (· + 1)

/-- `df[c]` as a column of cells; `none` models a pandas `KeyError`
for a column that is not present. -/
def Table.colValues (t : Table) (c : String) : Option (List String) :=
  (idxOf c t.cols).map (fun i => t.rows.map (fun r => r.getD i ""))

/-- The cell of row `r` at column `c` ("" when the column is absent,
matching the missing-value convention). -/
def Table.cell (t : Table) (r : List String) (c : String) : String :=
  match idxOf c t.cols with
  | some i => r.getD i ""
  | none => ""

/-! ### Numeric parsing (`pd.to_numeric(..., errors="coerce")` / `float`)

`parseDecimal` models the decimal-literal subset of Python's float parser:
optional sign, digits, optional fractional part, optional exponent.  IEEE
special spellings (`inf`, `nan`) are outside the rational model; `nan`
coerces to a missing value in the source anyway (dropped by `dropna`). -/

def digitsToNat (cs : List Char) : ℕ :=
  cs.foldl (fun n c => 10 * n + (c.toNat - 48)) 0

def parseDecimal (cs0 : List Char) : Option ℚ :=
  let (sgn, cs1) :=
    match cs0 with
    | '-' :: t => ((-1 : ℚ), t)
    | '+' :: t => ((1 : ℚ), t)
    | _ => ((1 : ℚ), cs0)
  let (ip, cs2) := cs1.span Char.isDigit
  let (fp, cs3) :=
    match cs2 with
    | '.' :: t => t.span Char.isDigit
    | _ => ([], cs2)
  if ip.isEmpty && fp.isEmpty then none
  else
    let base : ℚ := sgn * ((digitsToNat ip : ℚ) + (digitsToNat fp : ℚ) / (10 : ℚ) ^ fp.length)
    match cs3 with
    | [] => some base
    | c :: t =>
      if c = 'e' ∨ c = 'E' then
        let (esgn, t1) :=
          match t with
          | '-' :: u => ((-1 : ℤ), u)
          | '+' :: u => ((1 : ℤ), u)
          | _ => ((1 : ℤ), t)
        let (ed, t2) := t1.span Char.isDigit
        if ed.isEmpty ∨ ¬ t2.isEmpty then none
        else some (base * (10 : ℚ) ^ (esgn * (digitsToNat ed : ℤ)))
      else none

/-- `pd.to_numeric(value, errors="coerce")` on a single text cell:
unparseable text (including "") coerces to NaN, modelled as `none`. -/
def parseNumber (s : String) : Option ℚ :=
  parseDecimal (pyStrip s).toList

/-- `series.value_counts().to_dict()`: occurrence count of each distinct
text value.  The source's dict is ordered by descending count; the ordering
of the association list is not semantically relevant and not modelled. -/
def valueCounts (vs : List String) : List (String × ℕ) :=
  vs.dedup.map (fun v => (v, vs.count v))

/-- `dict.get(k, 0)` on a `value_counts` dictionary. -/
def lookupCount (b : List (String × ℕ)) (k : String) : ℕ :=
  ((b.find? (fun p => p.1 = k)).map Prod.snd).getD 0

/-! ### Column resolution (`query_engine.py` keyword heuristics) -/

def revenueKeywords : List String := ["value", "amount", "revenue", "total", "price"]

def statusKeywords : List String := ["status", "stage", "state"]

/-- First column whose lower-cased name contains "sector"
(`filter_by_sector` / `get_sector_breakdown` resolution loop). -/
def findSectorCol (t : Table) : Option String :=
  t.cols.find? (fun c => strContains (pyLower c) "sector")

/-- First column whose lower-cased name contains a status keyword
(`get_status_breakdown` resolution loop). -/
def findStatusCol (t : Table) : Option String :=
  t.cols.find? (fun c => containsAny (pyLower c) statusKeywords)

/-- First column whose lower-cased name contains a revenue keyword
(`get_revenue_metrics` resolution loop). -/
def findRevenueCol (t : Table) : Option String :=
  t.cols.find? (fun c => containsAny (pyLower c) revenueKeywords)

/-- First column whose lower-cased name contains "date"
(`filter_by_date_range` resolution loop). -/
def findDateCol (t : Table) : Option String :=
  t.cols.find? (fun c => strContains (pyLower c) "date")

/-! ### `filter_by_sector` -/

/-- `filter_by_sector(df, sector)`: keep rows whose sector-column text,
lower-cased, contains `sector.lower()`; table returned unchanged when no
sector column resolves.  The source uses `str.contains` (a regex match);
for the regex-metacharacter-free sector keywords the classifier supplies,
this coincides with substring containment, which is what is modelled. -/
def filter_by_sector (df : Table) (sector : String) : Table :=
  match findSectorCol df with
  | none => df
  | some c =>
    { df with rows := df.rows.filter (fun r => strContains (pyLower (df.cell r c)) (pyLower sector)) }

/-! ### `get_revenue_metrics` -/

structure RevenueMetrics where
  total : ℚ
  average : ℚ
  minVal : ℚ
  maxVal : ℚ
  count : ℕ
  column_used : String
deriving DecidableEq

/-- Result of `get_revenue_metrics`: either the returned `{"error": ...}`
dictionary or the metrics dictionary. -/
inductive RevenueResult where
  | err (msg : String)
  | ok (m : RevenueMetrics)
deriving DecidableEq

def qMin : List ℚ → ℚ
  | [] => 0
  | h :: t => t.foldl min h

def qMax : List ℚ → ℚ
  | [] => 0
  | h :: t => t.foldl max h

/-- `get_revenue_metrics(df, revenue_col=None)`: resolve the revenue column
when unspecified, coerce its values to numbers, drop the NaNs, and
aggregate.  A passed-in empty column name is falsy in Python and hits the
same error branch as a failed resolution. -/
def get_revenue_metrics (df : Table) (revenue_col : Option String) : RevenueResult :=
  match (match revenue_col with
    | some c => some c
    | none => findRevenueCol df) with
  | none => .err "No revenue column found"
  | some c =>
    if c = "" then .err "No revenue column found"
    else
      match df.colValues c with
      | none => .err "No revenue column found"
      | some vals =>
        let nums := vals.filterMap parseNumber
        if nums.length = 0 then .err "No valid numeric values found"
        else
          .ok { total := nums.sum
                average := nums.sum / (nums.length : ℚ)
                minVal := qMin nums
                maxVal := qMax nums
                count := nums.length
                column_used := c }

/-! ### `get_sector_breakdown` / `get_status_breakdown`

The source functions fetch the cached board table themselves; they are
parameterised here by that (already cleaned) table. -/

inductive BreakdownResult where
  | err (msg : String)
  | ok (column : String) (breakdown : List (String × ℕ))
deriving DecidableEq

def get_sector_breakdown (df : Table) : BreakdownResult :=
  match findSectorCol df with
  | none => .err "No sector column found"
  | some c => .ok c (valueCounts ((df.colValues c).getD []))

def get_status_breakdown (df : Table) : BreakdownResult :=
  match findStatusCol df with
  | none => .err "No status column found"
  | some c => .ok c (valueCounts ((df.colValues c).getD []))

/-! ### Dates (`data_processor.parse_date` and friends)

`parse_date` tries seven `strptime` formats and reformats a successful
parse to ISO.  The field parsers below mirror CPython's `_strptime`
matching: `%Y` is exactly four digits, `%m`/`%d` are one or two digits
within range, month names are matched case-insensitively, whitespace in a
format matches a nonempty whitespace run, and the whole string must be
consumed.  The `datetime` constructor's calendar validation (leap years,
days-in-month, year ≥ 1) is `validDate`. -/

def isLeap (y : ℕ) : Bool :=
  y % 4 = 0 && (y % 100 ≠ 0 || y % 400 = 0)

def daysInMonth (y m : ℕ) : ℕ :=
  if m = 2 then (if isLeap y then 29 else 28)
  else if m = 4 ∨ m = 6 ∨ m = 9 ∨ m = 11 then 30
  else 31

def validDate (y m d : ℕ) : Bool :=
  1 ≤ y && y ≤ 9999 && 1 ≤ m && m ≤ 12 && 1 ≤ d && d ≤ daysInMonth y m

def mkDate (y m d : ℕ) : Option (ℕ × ℕ × ℕ) :=
  if validDate y m d then some (y, m, d) else none

def takeDigitRun (cs : List Char) : List Char × List Char :=
  cs.span Char.isDigit

/-- `%Y`: exactly four digits. -/
def parseYear4 (cs : List Char) : Option (ℕ × List Char) :=
  let (ds, rest) := takeDigitRun cs
  if ds.length = 4 then some (digitsToNat ds, rest) else none

/-- `%m` / `%d`: a one- or two-digit run whose value lies in `[lo, hi]`. -/
def parseNum2 (lo hi : ℕ) (cs : List Char) : Option (ℕ × List Char) :=
  let (ds, rest) := takeDigitRun cs
  if ds.length = 1 ∨ ds.length = 2 then
    let n := digitsToNat ds
    if lo ≤ n ∧ n ≤ hi then some (n, rest) else none
  else none

def parseSep (c : Char) : List Char → Option (List Char)
  | x :: t => if x = c then some t else none
  | [] => none

/-- A whitespace character in a format string matches a nonempty run. -/
def parseSpaces (cs : List Char) : Option (List Char) :=
  let (ws, rest) := cs.span Char.isWhitespace
  if ws.isEmpty then none else some rest

def monthAbbrevs : List (String × ℕ) :=
  [("jan", 1), ("feb", 2), ("mar", 3), ("apr", 4), ("may", 5), ("jun", 6),
   ("jul", 7), ("aug", 8), ("sep", 9), ("oct", 10), ("nov", 11), ("dec", 12)]

def monthFulls : List (String × ℕ) :=
  [("january", 1), ("february", 2), ("march", 3), ("april", 4), ("may", 5),
   ("june", 6), ("july", 7), ("august", 8), ("september", 9), ("october", 10),
   ("november", 11), ("december", 12)]

/-- `%b` / `%B`: a letter run equal (case-insensitively) to a month name. -/
def parseMonthName (tbl : List (String × ℕ)) (cs : List Char) : Option (ℕ × List Char) :=
  let (ls, rest) := cs.span Char.isAlpha
  match tbl.find? (fun p => p.1 = String.mk (ls.map charLower)) with
  | some p => some (p.2, rest)
  | none => none

/-- `"%Y-%m-%d"` (also `"%Y/%m/%d"` via `sep`). -/
def parseFmtYmd (sep : Char) (s : List Char) : Option (ℕ × ℕ × ℕ) := do
  let (y, r) ← parseYear4 s
  let r ← parseSep sep r
  let (m, r) ← parseNum2 1 12 r
  let r ← parseSep sep r
  let (d, r) ← parseNum2 1 31 r
  if r.isEmpty then mkDate y m d else none

/-- `"%d-%m-%Y"` (also `"%d/%m/%Y"` via `sep`). -/
def parseFmtDmy (sep : Char) (s : List Char) : Option (ℕ × ℕ × ℕ) := do
  let (d, r) ← parseNum2 1 31 s
  let r ← parseSep sep r
  let (m, r) ← parseNum2 1 12 r
  let r ← parseSep sep r
  let (y, r) ← parseYear4 r
  if r.isEmpty then mkDate y m d else none

/-- `"%m/%d/%Y"`. -/
def parseFmtMdy (s : List Char) : Option (ℕ × ℕ × ℕ) := do
  let (m, r) ← parseNum2 1 12 s
  let r ← parseSep '/' r
  let (d, r) ← parseNum2 1 31 r
  let r ← parseSep '/' r
  let (y, r) ← parseYear4 r
  if r.isEmpty then mkDate y m d else none

/-- `"%d %b %Y"`. -/
def parseFmtDbY (s : List Char) : Option (ℕ × ℕ × ℕ) := do
  let (d, r) ← parseNum2 1 31 s
  let r ← parseSpaces r
  let (m, r) ← parseMonthName monthAbbrevs r
  let r ← parseSpaces r
  let (y, r) ← parseYear4 r
  if r.isEmpty then mkDate y m d else none

/-- `"%B %d, %Y"`. -/
def parseFmtBdY (s : List Char) : Option (ℕ × ℕ × ℕ) := do
  let (m, r) ← parseMonthName monthFulls s
  let r ← parseSpaces r
  let (d, r) ← parseNum2 1 31 r
  let r ← parseSep ',' r
  let r ← parseSpaces r
  let (y, r) ← parseYear4 r
  if r.isEmpty then mkDate y m d else none

/-- The seven formats of `parse_date`, tried in source order. -/
def tryFormats (s : String) : Option (ℕ × ℕ × ℕ) :=
  parseFmtYmd '-' s.toList <|>
  parseFmtDmy '-' s.toList <|>
  parseFmtMdy s.toList <|>
  parseFmtDmy '/' s.toList <|>
  parseFmtYmd '/' s.toList <|>
  parseFmtDbY s.toList <|>
  parseFmtBdY s.toList

def padNum (n w : ℕ) : String :=
  let s := toString n
  String.mk (List.replicate (w - s.length) '0') ++ s

/-- `strftime("%Y-%m-%d")`. -/
def formatISO (ymd : ℕ × ℕ × ℕ) : String :=
  padNum ymd.1 4 ++ "-" ++ padNum ymd.2.1 2 ++ "-" ++ padNum ymd.2.2 2

/-- `parse_date(value)`.  The argument is `Option String`: `none` models a
true missing marker (`None`/NaN, both caught by the `pd.isna` guard); the
source returns `None` for those and for the empty string, reformats a
recognised date to ISO, and returns the input unchanged otherwise. -/
def parse_date (value : Option String) : Option String :=
  match value with
  | none => none
  | some s =>
    if s = "" then none
    else
      match tryFormats (pyStrip s) with
      | some ymd => some (formatISO ymd)
      | none => some s

/-- Column-name heuristic of `normalize_dates`'s auto-detection. -/
def isDateColName (c : String) : Bool :=
  strContains (pyLower c) "date" ||
    containsAny (pyLower c) ["start", "end", "due", "created"]

/-- A table whose cells may hold the missing-value marker `None`, the
result shape of `normalize_dates` (an empty date cell is turned into a
real `None` in the frame by `parse_date`). -/
structure TableOpt where
  cols : List String
  rows : List (List (Option String))
deriving DecidableEq

def normRow (cols : List String) (r : List String) : List (Option String) :=
  List.zipWith
    (fun c v => if isDateColName c then parse_date (some v) else some v) cols r

/-- `normalize_dates(df)` with auto-detected date columns: applies
`parse_date` cell-wise to every column whose name matches the date
heuristic, leaving other cells as (present) strings. -/
def normalize_dates (df : Table) : TableOpt :=
  ⟨df.cols, df.rows.map (normRow df.cols)⟩

/-! ### `normalize_currency` (`data_processor.py`) -/

/-- `normalize_currency(value)`: strip the currency symbols `₹$€£`,
commas and whitespace, then parse as a float (`None` on failure, also for
missing input). -/
def normalize_currency (value : Option String) : Option ℚ :=
  match value with
  | none => none
  | some s =>
    if s = "" then none
    else
      parseDecimal (s.toList.filter (fun ch =>
        ¬ (ch = '₹' ∨ ch = '$' ∨ ch = '€' ∨ ch = '£' ∨ ch = ',' ∨ ch.isWhitespace)))

/-! ### `filter_by_date_range` / `get_quarterly_data`

`pd.to_datetime(..., errors="coerce")` on the cell side is modelled on the
ISO `YYYY-MM-DD` subset that the quarter bounds and the normalised data
use (`parseFmtYmd '-'`); an unparseable cell becomes `NaT`, whose
comparison with any bound is false.  The bounds themselves go through
`pd.to_datetime(...)` without `coerce`, which raises on unparseable input
(the `.error` branch). -/

def parseDatetime (s : String) : Option (ℕ × ℕ × ℕ) :=
  parseFmtYmd '-' (pyStrip s).toList

def dateLE (a b : ℕ × ℕ × ℕ) : Bool :=
  a.1 < b.1 ∨ (a.1 = b.1 ∧ (a.2.1 < b.2.1 ∨ (a.2.1 = b.2.1 ∧ a.2.2 ≤ b.2.2)))

/-- `filter_by_date_range(df, start_date, end_date, date_column)`. -/
def filter_by_date_range (df : Table) (start_date end_date : Option String)
    (date_column : Option String) : Except String Table :=
  let dc := match date_column with
    | some c => some c
    | none => findDateCol df
  match dc with
  | none => .ok df
  | some c =>
    if c ∈ df.cols then do
      let rows0 := df.rows
      let rows1 ← match start_date with
        | none => pure rows0
        | some sd =>
          match parseDatetime sd with
          | none => Except.error "DateParseError"
          | some lo =>
            pure (rows0.filter (fun r =>
              match parseDatetime (df.cell r c) with
              | some d => dateLE lo d
              | none => false))
      let rows2 ← match end_date with
        | none => pure rows1
        | some ed =>
          match parseDatetime ed with
          | none => Except.error "DateParseError"
          | some hi =>
            pure (rows1.filter (fun r =>
              match parseDatetime (df.cell r c) with
              | some d => dateLE d hi
              | none => false))
      pure { df with rows := rows2 }
    else .ok df

structure QuarterlyData where
  quarter : String
  start_date : String
  end_date : String
  deals : Table
  work_orders : Table
deriving DecidableEq

/-- The `quarter_ranges` table of `get_quarterly_data` (`none` models the
`KeyError` an out-of-range quarter would raise). -/
def quarterRange (year q : ℕ) : Option (String × String) :=
  if q = 1 then some (toString year ++ "-01-01", toString year ++ "-03-31")
  else if q = 2 then some (toString year ++ "-04-01", toString year ++ "-06-30")
  else if q = 3 then some (toString year ++ "-07-01", toString year ++ "-09-30")
  else if q = 4 then some (toString year ++ "-10-01", toString year ++ "-12-31")
  else none

/-- `get_quarterly_data(year, quarter)`.  The source fetches the cached
deals and work-orders tables itself; they are passed in here.  Note that
it always starts from the full cached tables, not from any filtered copy
a caller may hold. -/
def get_quarterly_data (year q : ℕ) (deals work_orders : Table) :
    Except String QuarterlyData :=
  match quarterRange year q with
  | none => .error "KeyError: quarter"
  | some (sd, ed) => do
    let d ← filter_by_date_range deals (some sd) (some ed) none
    let w ← filter_by_date_range work_orders (some sd) (some ed) none
    pure { quarter := "Q" ++ toString q ++ " " ++ toString year,
           start_date := sd, end_date := ed, deals := d, work_orders := w }

/-! ### Intent classification (`agent.analyze_data_for_question`, lines 84-149)

The keyword scans of the source, extracted as named predicates over the
lower-cased question text. -/

def woTerms : List String :=
  ["work order", "project", "execution", "billing", "billed", "revenue", "collected"]

def dealTerms : List String :=
  ["deal", "pipeline", "sales", "prospect", "opportunity", "stage"]

def bothTerms : List String :=
  ["overall", "business", "company", "everything", "summary", "leadership", "update"]

def sectorsScan : List String :=
  ["mining", "energy", "renewables", "powerline", "urban", "infrastructure", "agriculture"]

def needsWorkOrders (ql : String) : Bool := containsAny ql woTerms

def needsDeals (ql : String) : Bool := containsAny ql dealTerms

def needsBoth (ql : String) : Bool := containsAny ql bothTerms

/-- Lines 100-109: first sector keyword found in the fixed scan order,
then the `energy → renewables` override. -/
def detectSectorFilter (ql : String) : Option String :=
  let sf := sectorsScan.find? (fun s => strContains ql s)
  if strContains ql "energy" then some "renewables" else sf

/-- Line 120: the time-filter trigger. -/
def hasTimeTrigger (ql : String) : Bool :=
  strContains ql "quarter" || strContains ql "q1" || strContains ql "q2" ||
    strContains ql "q3" || strContains ql "q4"

/-- Lines 125-134: quarter number resolution (inside the trigger branch). -/
def detectQuarter (ql : String) : Option ℕ :=
  if strContains ql "this quarter" || strContains ql "current quarter" then some 1
  else if strContains ql "q1" then some 1
  else if strContains ql "q2" then some 2
  else if strContains ql "q3" then some 3
  else if strContains ql "q4" then some 4
  else none

/-- Lines 136-140: scan `range(2024, 2028)` for a year literal; default
2026. -/
def detectYear (ql : String) : ℕ :=
  match [2024, 2025, 2026, 2027].find? (fun y => strContains ql (toString y)) with
  | some y => y
  | none => 2026

/-! ### Ad-hoc metrics blocks (`analyze_data_for_question`, lines 152-214) -/

def woRevenueCol : String := "Amount in Rupees (Excl of GST) (Masked)"

def woBilledCol : String := "Billed Value in Rupees (Excl of GST.) (Masked)"

def dealValueCol : String := "Masked Deal value"

structure WOMetrics where
  total_work_orders : ℕ
  total_revenue : Option ℚ
  avg_order_value : Option ℚ
  total_billed : Option ℚ
  status_breakdown : Option (List (String × ℕ))
  sector_breakdown : Option (List (String × ℕ))
deriving DecidableEq

structure DealsMetrics where
  total_deals : ℕ
  total_pipeline_value : Option ℚ
  avg_deal_value : Option ℚ
  deals_with_value : Option ℕ
  stage_breakdown : Option (List (String × ℕ))
  status_breakdown : Option (List (String × ℕ))
  sector_breakdown : Option (List (String × ℕ))
deriving DecidableEq

/-- The work-orders metrics block (hardcoded column names, each guarded by
a membership check, so a missing column just leaves the metric unset). -/
def computeWOMetrics (wo : Table) : WOMetrics :=
  let m0 : WOMetrics :=
    { total_work_orders := wo.rows.length, total_revenue := none,
      avg_order_value := none, total_billed := none,
      status_breakdown := none, sector_breakdown := none }
  let m1 :=
    if woRevenueCol ∈ wo.cols then
      let nums := ((wo.colValues woRevenueCol).getD []).filterMap parseNumber
      if 0 < nums.length then
        { m0 with total_revenue := some nums.sum,
                  avg_order_value := some (nums.sum / (nums.length : ℚ)) }
      else m0
    else m0
  let m2 :=
    if woBilledCol ∈ wo.cols then
      let nums := ((wo.colValues woBilledCol).getD []).filterMap parseNumber
      if 0 < nums.length then { m1 with total_billed := some nums.sum } else m1
    else m1
  let m3 :=
    if "Execution Status" ∈ wo.cols then
      { m2 with status_breakdown := some (valueCounts ((wo.colValues "Execution Status").getD [])) }
    else m2
  if "Sector" ∈ wo.cols then
    { m3 with sector_breakdown := some (valueCounts ((wo.colValues "Sector").getD [])) }
  else m3

/-- The deals metrics block. -/
def computeDealsMetrics (deals : Table) : DealsMetrics :=
  let m0 : DealsMetrics :=
    { total_deals := deals.rows.length, total_pipeline_value := none,
      avg_deal_value := none, deals_with_value := none,
      stage_breakdown := none, status_breakdown := none, sector_breakdown := none }
  let m1 :=
    if dealValueCol ∈ deals.cols then
      let nums := ((deals.colValues dealValueCol).getD []).filterMap parseNumber
      if 0 < nums.length then
        { m0 with total_pipeline_value := some nums.sum,
                  avg_deal_value := some (nums.sum / (nums.length : ℚ)),
                  deals_with_value := some nums.length }
      else m0
    else m0
  let m2 :=
    if "Deal Stage" ∈ deals.cols then
      { m1 with stage_breakdown := some (valueCounts ((deals.colValues "Deal Stage").getD [])) }
    else m1
  let m3 :=
    if "Deal Status" ∈ deals.cols then
      { m2 with status_breakdown := some (valueCounts ((deals.colValues "Deal Status").getD [])) }
    else m2
  if "Sector/service" ∈ deals.cols then
    { m3 with sector_breakdown := some (valueCounts ((deals.colValues "Sector/service").getD [])) }
  else m3

/-- Python's `round` (half to even) on an exact rational. -/
def pyRound (x : ℚ) : ℤ :=
  let f := Int.floor x
  let r := x - f
  if r < 1 / 2 then f
  else if 1 / 2 < r then f + 1
  else if 2 ∣ f then f else f + 1

def pipelineCaveat (missing total : ℕ) : String :=
  "Pipeline value: " ++ toString missing ++ " deals (" ++
    toString (pyRound ((missing : ℚ) / (total : ℚ) * 100)) ++
    "%) have no value recorded"

def woCaveat : String :=
  "Revenue data uses \x27Amount in Rupees (Excl of GST)\x27 column"

/-- The structured analysis object assembled by
`analyze_data_for_question` (the parts of the `results` dict that carry
data; `insights` is never written by the source and is omitted). -/
structure AnalysisResults where
  data_analyzed : List String
  sector_filter : Option String
  quarter : Option String
  work_orders : Option WOMetrics
  deals : Option DealsMetrics
  caveats : List String
deriving DecidableEq

/-- `analyze_data_for_question(question)`.  `work_orders0` and `deals0`
are the cached base tables the source obtains from
`get_work_orders_df()` / `get_deals_df()`.  The `Except` layer models
uncaught Python exceptions: the deals caveat block indexes
`deals_full["Masked Deal value"]` without a membership check and raises
`KeyError` when that column is absent.

Note the quarterly step: `get_quarterly_data` re-fetches the *base*
tables, so when its (non-empty) result replaces the working table, any
sector filtering applied earlier is discarded. -/
def analyze_data_for_question (question : String) (work_orders0 deals0 : Table) :
    Except String AnalysisResults :=
  let ql := pyLower question
  let nw0 := needsWorkOrders ql
  let nd0 := needsDeals ql
  let nb := needsBoth ql || (!nw0 && !nd0)
  let nw := nw0 || nb
  let nd := nd0 || nb
  let sf := detectSectorFilter ql
  let wo1 := match sf with
    | some s => if nw then filter_by_sector work_orders0 s else work_orders0
    | none => work_orders0
  let deals1 := match sf with
    | some s => if nd then filter_by_sector deals0 s else deals0
    | none => deals0
  let timeStep : Except String (Table × Table × Option String) :=
    if hasTimeTrigger ql then
      match detectQuarter ql with
      | none => .ok (wo1, deals1, none)
      | some q =>
        let year := detectYear ql
        match get_quarterly_data year q deals0 work_orders0 with
        | .error e => .error e
        | .ok qd =>
          let wo2 := if nw && !qd.work_orders.rows.isEmpty then qd.work_orders else wo1
          let d2 := if nd && !qd.deals.rows.isEmpty then qd.deals else deals1
          .ok (wo2, d2, some qd.quarter)
    else .ok (wo1, deals1, none)
  match timeStep with
  | .error e => .error e
  | .ok (wo, deals, qstr) =>
    let woM := if nw then some (computeWOMetrics wo) else none
    let dM := if nd then some (computeDealsMetrics deals) else none
    let caveats1 := if nw then [woCaveat] else []
    let caveatStep : Except String (List String) :=
      if nd then
        match deals0.colValues dealValueCol with
        | none => .error ("KeyError: " ++ dealValueCol)
        | some vs =>
          let missing := vs.countP (fun v => (parseNumber v).isNone)
          if 0 < missing then .ok [pipelineCaveat missing deals0.rows.length]
          else .ok []
      else .ok []
    match caveatStep with
    | .error e => .error e
    | .ok caveats2 =>
      .ok { data_analyzed :=
              (if nw then ["Work Orders"] else []) ++ (if nd then ["Deals"] else []),
            sector_filter := sf,
            quarter := qstr,
            work_orders := woM,
            deals := dM,
            caveats := caveats1 ++ caveats2 }

/-! ### `generate_leadership_update` (`agent.py`, lines 241-315)

The numeric fields are kept as exact values: the source's
`format_number` regional rendering and `:.1f` percentage formatting are
presentation-layer string formatting (excluded from the core by the spec),
with `"N/A"` modelled as `none`.  The `date` field (wall clock) is
omitted.  Column accesses are direct `df[col]` indexing with no membership
guard, so a missing column raises `KeyError` — the `Except.error` case. -/

structure LeadershipUpdate where
  total_orders : ℕ
  total_value : ℚ
  billed_value : ℚ
  billing_percentage : Option ℚ
  completed : ℕ
  ongoing : ℕ
  total_deals : ℕ
  pipeline_value : ℚ
  won : ℕ
  lost : ℕ
  openDeals : ℕ
  win_rate : Option ℚ
  stages : List (String × ℕ)
  wo_sectors : List (String × ℕ)
  deal_sectors : List (String × ℕ)
  top_sector_wo : Option String
  top_sector_deals : Option String
  concerns : List String
deriving DecidableEq

/-- `pd.to_numeric(series, errors="coerce").sum()` (NaNs skipped; an
all-NaN column sums to 0.0). -/
def sumNumeric (vs : List String) : ℚ :=
  (vs.filterMap parseNumber).sum

/-- `max(d, key=d.get)` over a breakdown: a key of maximal count (`none`
for the empty dict, where the source falls back to "N/A").  Tie-breaking
order inside the dict is not semantically relevant and not modelled
beyond "first maximal entry in the list". -/
def topKey (b : List (String × ℕ)) : Option String :=
  (b.find? (fun p => b.all (fun q => q.2 ≤ p.2))).map Prod.fst

def unbilledConcern (amount : ℚ) : String :=
  "Unbilled amount: " ++ toString amount ++ " pending billing"

def missingValuesConcern (missing total : ℕ) : String :=
  toString missing ++ " deals (" ++
    toString (pyRound ((missing : ℚ) / (total : ℚ) * 100)) ++
    "%) missing deal value - data quality issue"

def generate_leadership_update (work_orders deals : Table) :
    Except String LeadershipUpdate :=
  match work_orders.colValues woRevenueCol with
  | none => .error ("KeyError: " ++ woRevenueCol)
  | some revVals =>
  match work_orders.colValues woBilledCol with
  | none => .error ("KeyError: " ++ woBilledCol)
  | some billVals =>
  match work_orders.colValues "Execution Status" with
  | none => .error ("KeyError: Execution Status")
  | some statusVals =>
  match deals.colValues dealValueCol with
  | none => .error ("KeyError: " ++ dealValueCol)
  | some dealValVals =>
  match deals.colValues "Deal Stage" with
  | none => .error ("KeyError: Deal Stage")
  | some stageVals =>
  match deals.colValues "Deal Status" with
  | none => .error ("KeyError: Deal Status")
  | some dealStatusVals =>
  match work_orders.colValues "Sector" with
  | none => .error ("KeyError: Sector")
  | some woSectorVals =>
  match deals.colValues "Sector/service" with
  | none => .error ("KeyError: Sector/service")
  | some dealSectorVals =>
  let total_revenue := sumNumeric revVals
  let total_billed := sumNumeric billVals
  let status_counts := valueCounts statusVals
  let deal_status_counts := valueCounts dealStatusVals
  let won := lookupCount deal_status_counts "Won"
  let lost := lookupCount deal_status_counts "Lost"
  let unbilled := total_revenue - total_billed
  let missing_values := deals.rows.length - (dealValVals.filterMap parseNumber).length
  .ok
    { total_orders := work_orders.rows.length
      total_value := total_revenue
      billed_value := total_billed
      billing_percentage :=
        if 0 < total_revenue then some (total_billed / total_revenue * 100) else none
      completed := lookupCount status_counts "Completed"
      ongoing :=
        lookupCount status_counts "Ongoing" +
          lookupCount status_counts "Executed until current month"
      total_deals := deals.rows.length
      pipeline_value := sumNumeric dealValVals
      won := won
      lost := lost
      openDeals := lookupCount deal_status_counts "Open"
      win_rate :=
        if 0 < won + lost then
          some ((won : ℚ) / ((won : ℚ) + (lost : ℚ)) * 100)
        else none
      stages := valueCounts stageVals
      wo_sectors := valueCounts woSectorVals
      deal_sectors := valueCounts dealSectorVals
      top_sector_wo := topKey (valueCounts woSectorVals)
      top_sector_deals := topKey (valueCounts dealSectorVals)
      concerns :=
        (if 0 < unbilled then [unbilledConcern unbilled] else []) ++
          (if (deals.rows.length : ℚ) * (3 / 10) < (missing_values : ℚ) then
            [missingValuesConcern missing_values deals.rows.length]
          else []) }

/-! ### Tabular Record Store (`query_engine.py`, lines 16-41)

To state the copy-on-read property, tables live in an explicit heap of
table objects addressed by allocation order, and the module cache `_cache`
is a name-to-address dictionary.  `pandas.DataFrame.copy()` allocates a
fresh object with the same contents; in-place mutation of an object is
`Store.write`. -/

structure Store where
  heap : List Table
  cache : List (String × ℕ)
deriving DecidableEq

/-- `key in _cache` / `_cache[key]` lookup. -/
def cacheLookup (c : List (String × ℕ)) (k : String) : Option ℕ :=
  (c.find? (fun p => p.1 = k)).map Prod.snd

/-- `_cache[key] = addr` (overwrites an existing binding). -/
def cacheStore (c : List (String × ℕ)) (k : String) (a : ℕ) : List (String × ℕ) :=
  if (c.find? (fun p => p.1 = k)).isSome then
    c.map (fun p => if p.1 = k then (k, a) else p)
  else c ++ [(k, a)]

/-- Allocate a new table object on the heap, returning its address. -/
def heapAlloc (s : Store) (t : Table) : ℕ × Store :=
  (s.heap.length, { s with heap := s.heap ++ [t] })

/-- Dereference a heap address. -/
def Store.read (s : Store) (a : ℕ) : Table :=
  s.heap.getD a emptyTable

/-- In-place mutation of the object at address `a` (what a consumer does
when it mutates a DataFrame it was handed). -/
def Store.write (s : Store) (a : ℕ) (t : Table) : Store :=
  { s with heap := s.heap.set a t }

/-- `get_work_orders_df` / `get_deals_df`, parameterised by the source
key: on cache miss or forced refresh, convert and clean the collaborator's
payload (`fetched` stands for the already-converted
`monday_json_to_dataframe` result), store it in the cache, and in every
case return `_cache[key].copy()` — a freshly allocated copy of the cached
object. -/
def clean_dataframe (df : Table) : Table :=
  { df with rows := df.rows.map (fun r => r.map String.trim) }

def getSourceDf (key : String) (fetched : Table) (force_refresh : Bool)
    (s : Store) : ℕ × Store :=
  let s1 :=
    if (cacheLookup s.cache key).isNone || force_refresh then
      let df := clean_dataframe fetched
      let (a, s') := heapAlloc s df
      { s' with cache := cacheStore s'.cache key a }
    else s
  match cacheLookup s1.cache key with
  | some a => heapAlloc s1 (s1.read a)
  | none => (0, s1)

def get_work_orders_df (fetched : Table) (force_refresh : Bool) (s : Store) :
    ℕ × Store :=
  getSourceDf "work_orders" fetched force_refresh s

def get_deals_df (fetched : Table) (force_refresh : Bool) (s : Store) :
    ℕ × Store :=
  getSourceDf "deals" fetched force_refresh s

/-- Cache validity: every cached address points into the heap. -/
def Store.WF (s : Store) : Prop :=
  ∀ k a, cacheLookup s.cache k = some a → a < s.heap.length

/-! ### Concrete example tables used in the theorems below -/

/-- A work-orders table with a Mining row and a Solar row, both dated in
Q1 2026, with a revenue column. -/
def woQuarterEx : Table :=
  ⟨["Item Name", "Sector", "Start date", "Amount in Rupees (Excl of GST) (Masked)"],
   [["A", "Mining", "2026-02-01", "100"], ["B", "Solar", "2026-02-05", "10"]]⟩

def dealsEmptyEx : Table := ⟨[], []⟩

/-- A table whose sector column has an empty-valued row. -/
def sectorEmptyEx : Table := ⟨["Sector"], [[""], ["Mining"]]⟩

/-- A table with a duplicated sector value. -/
def sectorDupEx : Table := ⟨["Sector"], [["x"], ["x"]]⟩

/-- A table whose revenue-like column holds a currency-formatted value. -/
def currencyEx : Table := ⟨["Item Name", "Amount"], [["a", "₹1,000"], ["b", "500"]]⟩

/-- A table with none of the hardcoded metric columns. -/
def woMissingColsEx : Table := ⟨["Item Name"], [["a"], ["b"]]⟩

/-- A revenue column with one numeric and one non-empty unparseable cell. -/
def mixedValuesEx : Table := ⟨["Deal value"], [["100"], ["abc"]]⟩

/-- A single-cell numeric revenue column. -/
def amountSingleEx : Table := ⟨["Amount"], [["7"]]⟩

/-- Sector rows: one matching "mining", one empty, one non-matching. -/
def sectorRowsEx : Table := ⟨["Sector"], [["Mining Corp"], [""], ["Solar"]]⟩

/-- A work-orders table whose revenue column sums to a negative number. -/
def woNegRevenueEx : Table :=
  ⟨["Item Name", "Amount in Rupees (Excl of GST) (Masked)",
    "Billed Value in Rupees (Excl of GST.) (Masked)", "Execution Status", "Sector"],
   [["W1", "-100", "50", "Completed", "Mining"]]⟩

/-- A deals table with every column `generate_leadership_update` reads. -/
def dealsPipelineEx : Table :=
  ⟨["Item Name", "Masked Deal value", "Deal Stage", "Deal Status", "Sector/service"],
   [["D1", "10", "Lead", "Won", "Mining"]]⟩

/-- A one-cell table whose column is date-named and whose cell is not a
date. -/
def dateColEx : Table := ⟨["Start date"], [["not a date"]]⟩

end Skylark

deriving instance DecidableEq for Except

namespace Skylark

/-! ## Helper lemmas -/

theorem listInfix_nil_of_ne {n : List Char} (h : n ≠ []) : listInfix n [] = false := by
  cases n with
  | nil => exact absurd rfl h
  | cons c t => rfl

theorem idxOf_eq_none_of_not_mem {c : String} : ∀ {l : List String}, c ∉ l → idxOf c l = none
  | [], _ => rfl
  | x :: t, h => by
    have hx : ¬ x = c := fun hh => h (hh ▸ List.mem_cons_self x t)
    have ht : c ∉ t := fun hh => h (List.mem_cons_of_mem x hh)
    simp [idxOf, hx, idxOf_eq_none_of_not_mem ht]

theorem idxOf_lt_length {c : String} : ∀ {l : List String} {i : ℕ},
    idxOf c l = some i → i < l.length := by
  intro l
  induction l with
  | nil => intro i h; simp [idxOf] at h
  | cons x t ih =>
    intro i h
    simp only [List.length_cons]
    by_cases hx : x = c
    · simp [idxOf, hx] at h
      omega
    · simp [idxOf, hx] at h
      obtain ⟨j, hj, rfl⟩ := h
      have := ih hj
      omega

theorem colValues_eq_none_of_not_mem {t : Table} {c : String} (h : c ∉ t.cols) :
    t.colValues c = none := by
  simp [Table.colValues, idxOf_eq_none_of_not_mem h]

theorem colValues_length {t : Table} {c : String} {vs : List String}
    (h : t.colValues c = some vs) : vs.length = t.rows.length := by
  simp [Table.colValues] at h
  obtain ⟨i, _, rfl⟩ := h
  simp

theorem length_filterMap_eq_countP {α β : Type} (f : α → Option β) :
    ∀ l : List α, (l.filterMap f).length = l.countP (fun a => (f a).isSome)
  | [] => rfl
  | a :: t => by
    cases hf : f a with
    | none =>
      simp [List.filterMap_cons, hf, List.countP_cons, length_filterMap_eq_countP f t]
    | some b =>
      simp [List.filterMap_cons, hf, List.countP_cons, length_filterMap_eq_countP f t]

theorem sum_valueCounts (vs : List String) :
    ((valueCounts vs).map Prod.snd).sum = vs.length := by
  have h := List.sum_map_count_dedup_eq_length vs
  simpa [valueCounts, Function.comp] using h

theorem mem_valueCounts {vs : List String} {v : String} {k : ℕ} :
    (v, k) ∈ valueCounts vs ↔ v ∈ vs ∧ k = vs.count v := by
  constructor
  · intro h
    simp [valueCounts] at h
    obtain ⟨u, hu, hv, hk⟩ := h
    subst hv
    exact ⟨hu, hk.symm⟩
  · rintro ⟨hv, rfl⟩
    simp [valueCounts]
    exact ⟨v, hv, rfl, rfl⟩

theorem find?_map_eq {α β : Type} (f : α → β) (p : β → Bool) :
    ∀ l : List α, (l.map f).find? p = (l.find? (fun a => p (f a))).map f
  | [] => rfl
  | a :: t => by
    by_cases h : p (f a)
    · simp [List.find?, h]
    · simp only [List.map_cons, List.find?]
      rw [Bool.of_not_eq_true h]
      simp only [Bool.false_eq_true]
      exact find?_map_eq f p t

theorem lookupCount_valueCounts (vs : List String) (k : String) :
    lookupCount (valueCounts vs) k = vs.count k := by
  unfold lookupCount valueCounts
  rw [find?_map_eq]
  by_cases hk : k ∈ vs
  · have hmem : k ∈ vs.dedup := List.mem_dedup.mpr hk
    cases hfind : vs.dedup.find? (fun a => decide ((a, vs.count a).1 = k)) with
    | none =>
      exfalso
      have := List.find?_eq_none.mp hfind k hmem
      simp at this
    | some u =>
      have hu := List.find?_some hfind
      simp at hu
      subst hu
      simp
  · have hmem : k ∉ vs.dedup := fun hh => hk (List.mem_dedup.mp hh)
    have hfind : vs.dedup.find? (fun a => decide ((a, vs.count a).1 = k)) = none := by
      apply List.find?_eq_none.mpr
      intro u hu
      simp
      intro he
      exact absurd (he ▸ hu) hmem
    rw [hfind]
    simp [List.count_eq_zero.mpr hk]

theorem set_append_length {α : Type} (l : List α) (x y : α) :
    (l ++ [x]).set l.length y = l ++ [y] := by
  induction l with
  | nil => rfl
  | cons a t ih => simp [List.set, ih]

theorem getD_append_length {α : Type} (l : List α) (x d : α) :
    (l ++ [x]).getD l.length d = x := by
  rw [List.getD_append_right l [x] d l.length (Nat.le_refl _)]
  simp

theorem idxOf_isSome_of_mem {c : String} : ∀ {l : List String}, c ∈ l → (idxOf c l).isSome
  | [], h => absurd h (List.not_mem_nil c)
  | x :: t, h => by
    by_cases hx : x = c
    · simp [idxOf, hx]
    · have ht : c ∈ t := by
        cases List.mem_cons.mp h with
        | inl he => exact absurd he.symm hx
        | inr ht => exact ht
      simp [idxOf, hx]
      have := idxOf_isSome_of_mem ht
      cases hi : idxOf c t with
      | none => rw [hi] at this; simp at this
      | some i => simp

theorem colValues_of_mem {t : Table} {c : String} (h : c ∈ t.cols) :
    ∃ vs, t.colValues c = some vs ∧ vs.length = t.rows.length := by
  have hs := idxOf_isSome_of_mem h
  cases hi : idxOf c t.cols with
  | none => rw [hi] at hs; simp at hs
  | some i =>
    refine ⟨t.rows.map (fun r => r.getD i ""), ?_, by simp⟩
    simp [Table.colValues, hi]

theorem find?_update_of_isSome (tl : List (String × ℕ)) (k : String) (a : ℕ)
    (h : (tl.find? (fun p => p.1 = k)).isSome) :
    (tl.map (fun p => if p.1 = k then (k, a) else p)).find? (fun p => p.1 = k) =
      some (k, a) := by
  induction tl with
  | nil => simp at h
  | cons p t ih =>
    by_cases hp : p.1 = k
    · simp [hp]
    · rw [List.map_cons, if_neg hp, List.find?_cons_of_neg _ (by simp [hp])]
      apply ih
      rw [List.find?_cons_of_neg _ (by simp [hp])] at h
      exact h

theorem find?_append_none {α : Type} (p : α → Bool) {l1 : List α}
    (h : l1.find? p = none) (l2 : List α) :
    (l1 ++ l2).find? p = l2.find? p := by
  induction l1 with
  | nil => simp
  | cons a t ih =>
    have ha : ¬ p a = true := by
      intro hc
      rw [List.find?_cons_of_pos _ hc] at h
      exact Option.some_ne_none a h
    rw [List.find?_cons_of_neg _ ha] at h
    rw [List.cons_append, List.find?_cons_of_neg _ ha]
    exact ih h

theorem cacheLookup_store_self (c : List (String × ℕ)) (k : String) (a : ℕ) :
    cacheLookup (cacheStore c k a) k = some a := by
  unfold cacheLookup cacheStore
  by_cases h : ((c.find? (fun p => p.1 = k)).isSome : Bool) = true
  · rw [if_pos h, find?_update_of_isSome c k a h]
    rfl
  · rw [if_neg h]
    have hn : c.find? (fun p => decide (p.1 = k)) = none := by
      cases hc : c.find? (fun p => decide (p.1 = k)) with
      | none => rfl
      | some x => rw [hc] at h; simp at h
    rw [find?_append_none _ hn]
    simp

/-! ## Claim theorems -/

/-- Claim C8: for every question text containing "energy" (the classifier
scans the lower-cased text), the sector filter is forced to "renewables",
regardless of which keyword in the ordered scan list matched first. -/
theorem energy_forces_renewables_filter (ql : String)
    (h : strContains ql "energy" = true) :
    detectSectorFilter ql = some "renewables" := by
  unfold detectSectorFilter
  rw [h]
  simp

/-- Witness for C8 at a question whose first scan match would be
"mining". -/
theorem energy_forces_renewables_filter_witness :
    strContains (pyLower "Mining and ENERGY deals") "energy" = true ∧
    detectSectorFilter (pyLower "Mining and ENERGY deals") = some "renewables" :=
  ⟨by decide, energy_forces_renewables_filter _ (by decide)⟩

/-- Claim C6: when a sector column resolves, every row surviving
`filter_by_sector` has a sector value containing the keyword
case-insensitively, and empty-valued rows never survive. -/
theorem filter_by_sector_rows_match_keyword (df : Table) (s c : String)
    (hs : s ∈ sectorsScan) (hc : findSectorCol df = some c) :
    ∀ r ∈ (filter_by_sector df s).rows,
      strContains (pyLower (df.cell r c)) (pyLower s) = true ∧ df.cell r c ≠ "" := by
  intro r hr
  unfold filter_by_sector at hr
  rw [hc] at hr
  simp only at hr
  have hmem := List.mem_filter.mp hr
  refine ⟨hmem.2, ?_⟩
  intro hcell
  have h2 := hmem.2
  rw [hcell] at h2
  have hlow : (pyLower s).toList ≠ [] := by
    simp only [sectorsScan, List.mem_cons, List.not_mem_nil, or_false] at hs
    rcases hs with rfl | rfl | rfl | rfl | rfl | rfl | rfl <;> decide
  have hfalse : strContains (pyLower "") (pyLower s) = false := by
    have he : pyLower "" = "" := rfl
    rw [he]
    unfold strContains
    exact listInfix_nil_of_ne hlow
  rw [hfalse] at h2
  exact Bool.false_ne_true h2

/-- Witness for C6 on a table with a matching, an empty and a
non-matching row. -/
theorem filter_by_sector_rows_match_keyword_witness :
    "mining" ∈ sectorsScan ∧ findSectorCol sectorRowsEx = some "Sector" ∧
    ∀ r ∈ (filter_by_sector sectorRowsEx "mining").rows,
      strContains (pyLower (sectorRowsEx.cell r "Sector")) (pyLower "mining") = true ∧
        sectorRowsEx.cell r "Sector" ≠ "" :=
  ⟨by decide, by decide,
   filter_by_sector_rows_match_keyword sectorRowsEx "mining" "Sector" (by decide) (by decide)⟩

/-- Counterexample to claim C2: on a table whose sector column has an
empty-valued row, the breakdown *does* contain an entry for the empty
string, and the sum of all counts (2) equals the total row count, not the
non-empty row count (1). -/
theorem breakdown_includes_empty_value_entry :
    get_sector_breakdown sectorEmptyEx = .ok "Sector" [("", 1), ("Mining", 1)] ∧
    ((sectorEmptyEx.colValues "Sector").getD []).countP (fun v => !(v == "")) = 1 := by
  decide

/-- Claim C2 as amended: the `value_counts` breakdown of a resolved
sector or status column has one entry per distinct value — including the
empty string — whose count is that value's number of occurrences, and the
counts sum to the total number of rows. -/
theorem breakdown_counts_all_rows (df : Table) (c : String) (b : List (String × ℕ))
    (hb : get_sector_breakdown df = .ok c b ∨ get_status_breakdown df = .ok c b) :
    (b.map Prod.snd).sum = df.rows.length ∧
    ∀ v k, (v, k) ∈ b ↔
      v ∈ (df.colValues c).getD [] ∧ k = ((df.colValues c).getD []).count v := by
  have hcb : c ∈ df.cols ∧ b = valueCounts ((df.colValues c).getD []) := by
    rcases hb with h | h
    · unfold get_sector_breakdown at h
      cases hf : findSectorCol df with
      | none => rw [hf] at h; exact absurd h (by simp)
      | some c0 =>
        rw [hf] at h
        injection h with hc hb2
        subst hc
        exact ⟨List.mem_of_find?_eq_some hf, hb2.symm⟩
    · unfold get_status_breakdown at h
      cases hf : findStatusCol df with
      | none => rw [hf] at h; exact absurd h (by simp)
      | some c0 =>
        rw [hf] at h
        injection h with hc hb2
        subst hc
        exact ⟨List.mem_of_find?_eq_some hf, hb2.symm⟩
  obtain ⟨hmem, rfl⟩ := hcb
  obtain ⟨vs, hvs, hlen⟩ := colValues_of_mem hmem
  rw [hvs]
  simp only [Option.getD_some]
  exact ⟨by rw [sum_valueCounts, hlen], fun v k => mem_valueCounts⟩

/-- Witness for the amended C2 on a concrete two-row table. -/
theorem breakdown_counts_all_rows_witness :
    (get_sector_breakdown sectorDupEx = .ok "Sector" [("x", 2)] ∨
      get_status_breakdown sectorDupEx = .ok "Sector" [("x", 2)]) ∧
    (([("x", 2)].map Prod.snd).sum = sectorDupEx.rows.length ∧
      ∀ v k, (v, k) ∈ [("x", 2)] ↔
        v ∈ (sectorDupEx.colValues "Sector").getD [] ∧
          k = ((sectorDupEx.colValues "Sector").getD []).count v) :=
  ⟨Or.inl (by decide),
   breakdown_counts_all_rows sectorDupEx "Sector" [("x", 2)] (Or.inl (by decide))⟩

set_option maxRecDepth 100000 in
/-- Counterexample to claim C5: on a revenue column `["100", "abc"]`, the
metrics `count` is 1 (parseable rows), while the number of rows with a
non-empty value is 2. -/
theorem revenue_count_excludes_unparseable_nonempty :
    get_revenue_metrics mixedValuesEx none = .ok ⟨100, 100, 100, 100, 1, "Deal value"⟩ ∧
    ((mixedValuesEx.colValues "Deal value").getD []).countP (fun v => !(v == "")) = 2 := by
  with_unfolding_all decide

/-- Claim C5 as amended: the `count` of a successful
`get_revenue_metrics` result equals the number of rows of the resolved
column whose value parses as a number (valid numeric rows) — which can be
smaller than the number of non-empty rows — and is positive. -/
theorem revenue_count_eq_parseable_rows (df : Table) (rc : Option String)
    (m : RevenueMetrics) (h : get_revenue_metrics df rc = .ok m) :
    m.count = ((df.colValues m.column_used).getD []).countP
        (fun v => (parseNumber v).isSome) ∧
    0 < m.count := by
  unfold get_revenue_metrics at h
  split at h
  · exact absurd h (by simp)
  · split at h
    · exact absurd h (by simp)
    · dsimp only at h
      rename_i c heq hce
      split at h
      · exact absurd h (by simp)
      · rename_i vals hvals
        split at h
        · exact absurd h (by simp)
        · rename_i hn
          injection h with hm
          subst hm
          simp only
          rw [hvals]
          simp only [Option.getD_some]
          exact ⟨length_filterMap_eq_countP parseNumber vals, Nat.pos_of_ne_zero hn⟩

set_option maxRecDepth 100000 in
/-- Witness for the amended C5 on a one-row numeric column. -/
theorem revenue_count_eq_parseable_rows_witness :
    get_revenue_metrics amountSingleEx none = .ok ⟨7, 7, 7, 7, 1, "Amount"⟩ ∧
    ((⟨7, 7, 7, 7, 1, "Amount"⟩ : RevenueMetrics).count =
        ((amountSingleEx.colValues "Amount").getD []).countP
          (fun v => (parseNumber v).isSome) ∧
      0 < (⟨7, 7, 7, 7, 1, "Amount"⟩ : RevenueMetrics).count) :=
  ⟨by with_unfolding_all decide,
   revenue_count_eq_parseable_rows amountSingleEx none _ (by with_unfolding_all decide)⟩

set_option maxRecDepth 100000 in
/-- Claim C3 (code-bug evidence): `get_revenue_metrics` parses values
with a plain numeric coercion, so the currency-formatted value "₹1,000"
is excluded from the aggregates (total 500, count 1) rather than
contributing 1000 — while the repository's own `normalize_currency`
(imported by the query engine but never applied on this path) parses the
same value to 1000. -/
theorem revenue_metrics_exclude_currency_formatted_values :
    get_revenue_metrics currencyEx none = .ok ⟨500, 500, 500, 500, 1, "Amount"⟩ ∧
    normalize_currency (some "₹1,000") = some 1000 ∧
    parseNumber "₹1,000" = none := by
  with_unfolding_all decide

set_option maxRecDepth 100000 in
/-- Claim C1 (code-bug evidence): for the question
"mining work order for q1 2026" on a table with a Mining row (₹100) and a
Solar row (₹10), both dated inside Q1 2026, the produced metrics cover
*both* rows — row count 2, revenue 110, "Solar" in the sector breakdown —
because the quarterly step re-fetches the unfiltered base table and
discards the sector filter; composing both filters as the claim states
would leave only the Mining row (count 1, revenue 100). -/
theorem adhoc_quarter_overrides_sector_filter :
    analyze_data_for_question "mining work order for q1 2026" woQuarterEx dealsEmptyEx =
      .ok { data_analyzed := ["Work Orders"], sector_filter := some "mining",
            quarter := some "Q1 2026",
            work_orders := some ⟨2, some 110, some 55, none, none,
              some [("Mining", 1), ("Solar", 1)]⟩,
            deals := none, caveats := [woCaveat] } := by
  with_unfolding_all decide

/-- Counterexample to claim C7: on a work-orders table whose revenue
column sums to -100 (non-zero!) with billed 50, the update reports the
billing percentage as "N/A" (the guard is `total_revenue > 0`, not
`≠ 0`), whereas the claim's "otherwise they equal billed/revenue*100"
clause demands -50. -/
theorem billing_percentage_na_for_negative_revenue :
    (generate_leadership_update woNegRevenueEx dealsPipelineEx).map
        (fun u => u.billing_percentage) = .ok none ∧
    sumNumeric ((woNegRevenueEx.colValues woRevenueCol).getD []) = -100 := by
  with_unfolding_all decide

/-- Claim C7 as amended: no division by zero is possible — the billing
percentage is "N/A" (`none`) exactly when total revenue is ≤ 0 (in
particular when it is 0), and equals billed/revenue*100 when revenue is
positive; the win rate is "N/A" exactly when won+lost = 0 and equals
won/(won+lost)*100 otherwise. -/
theorem billing_and_winrate_guards (wo deals : Table) (u : LeadershipUpdate)
    (rv bv dsv : List String)
    (hrv : wo.colValues woRevenueCol = some rv)
    (hbv : wo.colValues woBilledCol = some bv)
    (hdsv : deals.colValues "Deal Status" = some dsv)
    (h : generate_leadership_update wo deals = .ok u) :
    (u.billing_percentage =
      if 0 < sumNumeric rv then some (sumNumeric bv / sumNumeric rv * 100) else none) ∧
    (sumNumeric rv = 0 → u.billing_percentage = none) ∧
    (u.win_rate =
      if 0 < dsv.count "Won" + dsv.count "Lost" then
        some ((dsv.count "Won" : ℚ) /
          ((dsv.count "Won" : ℚ) + (dsv.count "Lost" : ℚ)) * 100)
      else none) ∧
    (dsv.count "Won" + dsv.count "Lost" = 0 → u.win_rate = none) := by
  unfold generate_leadership_update at h
  split at h
  · exact absurd h (by simp)
  split at h
  · exact absurd h (by simp)
  split at h
  · exact absurd h (by simp)
  split at h
  · exact absurd h (by simp)
  split at h
  · exact absurd h (by simp)
  split at h
  · exact absurd h (by simp)
  split at h
  · exact absurd h (by simp)
  split at h
  · exact absurd h (by simp)
  rename_i x1 revVals hrev x2 billVals hbill x3 stVals hst x4 dvVals hdv
    x5 sgVals hsg x6 dsVals hds x7 wsVals hws x8 dsecVals hdsec
  obtain rfl : rv = revVals := Option.some.inj (hrv.symm.trans hrev)
  obtain rfl : bv = billVals := Option.some.inj (hbv.symm.trans hbill)
  obtain rfl : dsv = dsVals := Option.some.inj (hdsv.symm.trans hds)
  dsimp only at h
  injection h with hm
  subst hm
  refine ⟨rfl, ?_, ?_, ?_⟩
  · intro h0
    simp only [h0]
    simp
  · simp only [lookupCount_valueCounts]
  · intro h0
    simp only [lookupCount_valueCounts, h0]
    simp

/-- Witness for the amended C7 on concrete tables (revenue ["-100"],
billed ["50"], deal statuses ["Won"]). -/
theorem billing_and_winrate_guards_witness :
    ∃ u, generate_leadership_update woNegRevenueEx dealsPipelineEx = .ok u ∧
      (u.billing_percentage =
        if 0 < sumNumeric ["-100"] then
          some (sumNumeric ["50"] / sumNumeric ["-100"] * 100)
        else none) ∧
      (u.win_rate =
        if 0 < (["Won"].count "Won") + (["Won"].count "Lost") then
          some (((["Won"].count "Won" : ℚ)) /
            (((["Won"].count "Won" : ℚ)) + ((["Won"].count "Lost" : ℚ))) * 100)
        else none) := by
  cases hgen : generate_leadership_update woNegRevenueEx dealsPipelineEx with
  | error e =>
    have hok : (generate_leadership_update woNegRevenueEx dealsPipelineEx).toOption.isSome
        = true := by with_unfolding_all decide
    rw [hgen] at hok
    exact absurd hok (by simp [Except.toOption])
  | ok u =>
    have hc := billing_and_winrate_guards woNegRevenueEx dealsPipelineEx u
      ["-100"] ["50"] ["Won"] (by with_unfolding_all decide)
      (by with_unfolding_all decide) (by with_unfolding_all decide) hgen
    exact ⟨u, rfl, hc.1, hc.2.2.1⟩

/-- Counterexample to claim C4: the leadership-update assembler indexes
its hardcoded revenue column without a membership check, so on a table
lacking that column it raises `KeyError` instead of degrading. -/
theorem leadership_update_errors_on_missing_column :
    generate_leadership_update woMissingColsEx dealsPipelineEx =
      .error ("KeyError: " ++ woRevenueCol) := by
  with_unfolding_all decide

/-- Claim C4 as amended: the ad-hoc analysis metric blocks degrade by
omitting every metric whose hardcoded column is absent (returning only
the row count), without raising; the leadership-update assembler instead
raises a missing-column error as soon as one of its fixed columns is
absent. -/
theorem adhoc_metrics_degrade_leadership_raises (wo deals : Table)
    (h1 : woRevenueCol ∉ wo.cols) (h2 : woBilledCol ∉ wo.cols)
    (h3 : "Execution Status" ∉ wo.cols) (h4 : "Sector" ∉ wo.cols) :
    analyze_data_for_question "how many work orders" wo deals =
      .ok { data_analyzed := ["Work Orders"], sector_filter := none, quarter := none,
            work_orders := some ⟨wo.rows.length, none, none, none, none, none⟩,
            deals := none, caveats := [woCaveat] } ∧
    generate_leadership_update wo deals = .error ("KeyError: " ++ woRevenueCol) := by
  constructor
  · have hql : pyLower "how many work orders" = "how many work orders" := by decide
    have hnw : needsWorkOrders "how many work orders" = true := by decide
    have hnd : needsDeals "how many work orders" = false := by decide
    have hnb : needsBoth "how many work orders" = false := by decide
    have hsf : detectSectorFilter "how many work orders" = none := by decide
    have htt : hasTimeTrigger "how many work orders" = false := by decide
    simp only [analyze_data_for_question, computeWOMetrics, hql, hnw, hnd, hnb, hsf,
      htt, h1, h2, h3, h4, Bool.false_or, Bool.or_false, Bool.not_true, Bool.not_false,
      Bool.and_false, Bool.false_and, Bool.and_self, Bool.true_or, Bool.or_true,
      Bool.or_self, if_true, if_false]
    simp [h1, h2, h3, h4]
  · unfold generate_leadership_update
    rw [colValues_eq_none_of_not_mem h1]

/-- Witness for the amended C4 on a table having only an "Item Name"
column. -/
theorem adhoc_metrics_degrade_leadership_raises_witness :
    (woRevenueCol ∉ woMissingColsEx.cols) ∧
    (analyze_data_for_question "how many work orders" woMissingColsEx dealsEmptyEx =
      .ok { data_analyzed := ["Work Orders"], sector_filter := none, quarter := none,
            work_orders := some ⟨2, none, none, none, none, none⟩,
            deals := none, caveats := [woCaveat] } ∧
      generate_leadership_update woMissingColsEx dealsEmptyEx =
        .error ("KeyError: " ++ woRevenueCol)) :=
  ⟨by decide,
   adhoc_metrics_degrade_leadership_raises woMissingColsEx dealsEmptyEx
     (by decide) (by decide) (by decide) (by decide)⟩

/-- Claim C9: the store's get operation returns a freshly allocated copy
of the cached table, so mutating a returned table (writing through its
address) never changes what a subsequent get for that source returns. -/
theorem cached_table_immune_to_consumer_mutation (key : String) (fetched : Table)
    (s : Store) (hwf : Store.WF s) (t' : Table) :
    Store.read
        (getSourceDf key fetched false
          (Store.write (getSourceDf key fetched false s).2
            (getSourceDf key fetched false s).1 t')).2
        (getSourceDf key fetched false
          (Store.write (getSourceDf key fetched false s).2
            (getSourceDf key fetched false s).1 t')).1 =
      Store.read (getSourceDf key fetched false s).2 (getSourceDf key fetched false s).1 := by
  cases hl : cacheLookup s.cache key with
  | some a =>
    have ha : a < s.heap.length := hwf key a hl
    simp only [getSourceDf, hl, Option.isSome_some, Option.isNone_some, Bool.false_or,
      Bool.or_false, Bool.false_eq_true, if_false, ite_false, heapAlloc,
      Store.write, Store.read]
    rw [set_append_length]
    rw [List.getD_append _ _ _ _ ha]
    rw [getD_append_length, getD_append_length]
  | none =>
    simp only [getSourceDf, hl, Option.isNone_none, Option.isNone_some, Bool.true_or,
      Bool.false_or, Bool.or_false, Bool.false_eq_true, if_true, ite_true, if_false,
      ite_false, heapAlloc, cacheLookup_store_self, Store.write, Store.read]
    rw [set_append_length]
    rw [getD_append_length]
    rw [List.getD_append _ _ _ _ (by simp), getD_append_length]
    rw [getD_append_length]

/-- Witness for C9: starting from the empty store (trivially well-formed),
a consumer mutation between two gets does not change the second get's
result. -/
theorem cached_table_immune_to_consumer_mutation_witness :
    Store.WF ⟨[], []⟩ ∧
    Store.read
        (getSourceDf "work_orders" woQuarterEx false
          (Store.write (getSourceDf "work_orders" woQuarterEx false ⟨[], []⟩).2
            (getSourceDf "work_orders" woQuarterEx false ⟨[], []⟩).1 emptyTable)).2
        (getSourceDf "work_orders" woQuarterEx false
          (Store.write (getSourceDf "work_orders" woQuarterEx false ⟨[], []⟩).2
            (getSourceDf "work_orders" woQuarterEx false ⟨[], []⟩).1 emptyTable)).1 =
      Store.read (getSourceDf "work_orders" woQuarterEx false ⟨[], []⟩).2
        (getSourceDf "work_orders" woQuarterEx false ⟨[], []⟩).1 := by
  have hwf : Store.WF ⟨[], []⟩ := by
    intro k a h
    simp [cacheLookup] at h
  exact ⟨hwf,
    cached_table_immune_to_consumer_mutation "work_orders" woQuarterEx ⟨[], []⟩ hwf emptyTable⟩

/-- Claim C10: `parse_date` returns `None` for a missing value and for the
empty string, but returns the original text unchanged for any non-empty
string that matches none of the seven supported formats; consequently
`normalize_dates` leaves such a cell as its original text rather than
marking it missing. -/
theorem parse_date_keeps_unparseable_text (s : String) (df : Table) (i j : ℕ)
    (hne : s ≠ "") (hun : tryFormats (pyStrip s) = none)
    (hcol : isDateColName (df.cols.getD j "") = true)
    (hv : (df.rows.getD i []).getD j "" = s) :
    parse_date (some s) = some s ∧
    ((normalize_dates df).rows.getD i []).getD j none = some s ∧
    parse_date none = none ∧ parse_date (some "") = none := by
  have hp : parse_date (some s) = some s := by
    simp only [parse_date]
    rw [if_neg hne, hun]
  refine ⟨hp, ?_, rfl, by decide⟩
  by_cases hi : i < df.rows.length
  · have h1 : (normalize_dates df).rows.getD i [] = normRow df.cols (df.rows.getD i []) := by
      unfold normalize_dates
      rw [List.getD_eq_getElem _ _ (by simpa using hi), List.getElem_map,
        List.getD_eq_getElem _ _ hi]
    rw [h1]
    by_cases hj : j < df.cols.length
    · by_cases hjr : j < (df.rows.getD i []).length
      · have hz : j < (normRow df.cols (df.rows.getD i [])).length := by
          unfold normRow
          rw [List.length_zipWith]
          omega
        rw [List.getD_eq_getElem _ _ hz]
        unfold normRow
        rw [List.getElem_zipWith]
        have hc : df.cols[j] = df.cols.getD j "" := (List.getD_eq_getElem _ _ hj).symm
        have hrv : (df.rows.getD i [])[j] = s := by
          rw [← hv, List.getD_eq_getElem _ _ hjr]
        rw [hc, hrv, if_pos hcol, hp]
      · exfalso
        have hd : (df.rows.getD i []).getD j "" = "" :=
          List.getD_eq_default _ _ (Nat.le_of_not_lt hjr)
        exact hne (hv.symm.trans hd)
    · exfalso
      have hd : df.cols.getD j "" = "" := List.getD_eq_default _ _ (Nat.le_of_not_lt hj)
      rw [hd] at hcol
      exact absurd hcol (by decide)
  · exfalso
    have hd : df.rows.getD i [] = [] := List.getD_eq_default _ _ (Nat.le_of_not_lt hi)
    rw [hd] at hv
    have hv2 : ("" : String) = s := by simpa using hv
    exact hne hv2.symm

/-- Witness for C10 on a one-cell table with an unparseable date text. -/
theorem parse_date_keeps_unparseable_text_witness :
    ("not a date" ≠ "") ∧ tryFormats (pyStrip "not a date") = none ∧
    isDateColName (dateColEx.cols.getD 0 "") = true ∧
    (parse_date (some "not a date") = some "not a date" ∧
      ((normalize_dates dateColEx).rows.getD 0 []).getD 0 none = some "not a date" ∧
      parse_date none = none ∧ parse_date (some "") = none) :=
  ⟨by decide, by decide, by decide,
   parse_date_keeps_unparseable_text "not a date" dateColEx 0 0
     (by decide) (by decide) (by decide) (by decide)⟩

end Skylark
